import Mathlib

/-!
# Verification of the GuGoTik Node.js SDK chunked-upload core

Shallow embedding of the SDK's video-publish entry point
(`Publish.publishVideo` in `src/services/publish.ts`) and of the
chunked-upload machinery of the `Client` class (`client.ts`, whose
implementation is not part of the source tree; those parts are modelled
from the design spec, as marked on each definition).

Byte payloads are modelled as `List Nat`; a payload's `size` is its
length.  JavaScript `undefined` arguments are modelled as `Option`;
throwing an `AppwriteException` is modelled as `Except.error`.
-/

/-- The error class thrown by the SDK (`AppwriteException` in `client.ts`).
Only the message is relevant to the claims. -/
structure AppwriteException where
  message : String
deriving DecidableEq, Repr

/-- Modelled from the spec: `Client.CHUNK_SIZE` lives in `client.ts`, which is
not in the source tree; the spec and the README document it as the fixed
5 MiB chunk-size constant. -/
def CHUNK_SIZE : Nat := 5 * 1024 * 1024

/-- The `data` argument of `Publish.publishVideo`: at runtime it is a
`Buffer`, a `Blob`, a `File`, or (dynamically typed) anything else, which
the source rejects.  `other` stands for any value of none of the three
accepted types. -/
inductive VideoData where
  | buffer (bytes : List Nat)
  | blob (bytes : List Nat)
  | file (bytes : List Nat)
  | other
deriving DecidableEq, Repr

/-- The transport activity `publishVideo` dispatches to: one ordinary
`client.call` carrying the whole payload, or one `client.chunkedUpload`
invocation. -/
inductive UploadDispatch where
  | single (fileBytes : List Nat)
  | chunked (fileBytes : List Nat) (onProgress : Bool)
deriving DecidableEq, Repr

/-- The `Missing required parameter: "name"` exception of the source's
argument checks. -/
def missingParam (name : String) : AppwriteException :=
  { message := "Missing required parameter: \"" ++ name ++ "\"" }

/-- The data-normalisation step of `Publish.publishVideo`
(`src/services/publish.ts` lines 118-131): a `File` is used as is; a `Blob`
is wrapped as `new File([data], 'video.mp4', ...)` (same bytes); a `Buffer`
is viewed as `new Uint8Array(data.buffer, data.byteOffset, data.byteLength)`
and wrapped in a `Blob` then a `File` (same bytes); anything else throws. -/
def normalizeData : VideoData → Except AppwriteException (List Nat)
  | VideoData.file b => Except.ok b
  | VideoData.blob b => Except.ok b
  | VideoData.buffer b => Except.ok b
  | VideoData.other =>
      Except.error { message := "Invalid data type. Expected Buffer, Blob, or File" }

/-- `Publish.publishVideo` (`src/services/publish.ts` lines 88-159):
validates the four required arguments in order, normalises `data` to a
`File`, then dispatches to `client.chunkedUpload` when
`fileData.size > Client.CHUNK_SIZE || onProgress`, and to a single ordinary
`client.call` otherwise.  `onProgress : Bool` records whether a progress
callback was supplied (the source tests the callback's truthiness). -/
def publishVideo (actorId : Option Int) (token : Option String)
    (data : Option VideoData) (title : Option String) (onProgress : Bool) :
    Except AppwriteException UploadDispatch :=
  match actorId with
  | none => Except.error (missingParam "actorId")
  | some _ =>
    match token with
    | none => Except.error (missingParam "token")
    | some _ =>
      match data with
      | none => Except.error (missingParam "data")
      | some d =>
        match title with
        | none => Except.error (missingParam "title")
        | some _ =>
          match normalizeData d with
          | Except.error e => Except.error e
          | Except.ok fileBytes =>
            if CHUNK_SIZE < fileBytes.length ∨ onProgress = true then
              Except.ok (UploadDispatch.chunked fileBytes onProgress)
            else
              Except.ok (UploadDispatch.single fileBytes)

/-- Modelled from the spec: section 6 describes the caller-facing entry
point as accepting `(ownerId, authToken, payload, title, chunkSizeOverride?,
onProgress?)`, with the chunk size defaulting to the fixed constant unless
overridden by the caller, and governing the skip-chunking decision.  This
definition follows the spec's words, for comparison with `publishVideo`
embedded from the source. -/
def publishVideoSpec (actorId : Option Int) (token : Option String)
    (data : Option VideoData) (title : Option String)
    (chunkSizeOverride : Option Nat) (onProgress : Bool) :
    Except AppwriteException UploadDispatch :=
  match actorId with
  | none => Except.error (missingParam "actorId")
  | some _ =>
    match token with
    | none => Except.error (missingParam "token")
    | some _ =>
      match data with
      | none => Except.error (missingParam "data")
      | some d =>
        match title with
        | none => Except.error (missingParam "title")
        | some _ =>
          match normalizeData d with
          | Except.error e => Except.error e
          | Except.ok fileBytes =>
            if chunkSizeOverride.getD CHUNK_SIZE < fileBytes.length ∨ onProgress = true then
              Except.ok (UploadDispatch.chunked fileBytes onProgress)
            else
              Except.ok (UploadDispatch.single fileBytes)

/-- Modelled from the spec: `UploadPlan` range (spec section 3), produced by
the `ChunkPlanner` of `client.ts`, which is not in the source tree.
`start`/`stop` are the inclusive byte offsets the spec calls `start`/`end`
(`end` is a Lean keyword); they are integers so the degenerate empty-payload
range `[0, -1]` of spec section 4.1 is representable. -/
structure ChunkRange where
  start : Int
  stop : Int
  totalSize : Nat
  index : Nat
deriving DecidableEq, Repr

/-- Inclusive-offset length of a chunk range: `end - start + 1`. -/
def rangeLen (r : ChunkRange) : Int :=
  r.stop - r.start + 1

namespace ChunkPlanner

/-- Modelled from the spec: number of planned chunks, `ceil(totalSize /
chunkSize)` for a positive total and exactly one (degenerate) range for an
empty payload (spec sections 4.1). -/
def numChunks (totalSize chunkSize : Nat) : Nat :=
  if totalSize = 0 then 1 else (totalSize + chunkSize - 1) / chunkSize

/-- Modelled from the spec: `ChunkPlanner.plan(totalSize, chunkSize)` of
`client.ts` (not in the source tree), spec section 4.1: the ordered sequence
of inclusive byte ranges, the i-th covering `[i * chunkSize,
min((i + 1) * chunkSize, totalSize) - 1]`. -/
def plan (totalSize chunkSize : Nat) : List ChunkRange :=
  (List.range (numChunks totalSize chunkSize)).map fun i =>
    { start := (i * chunkSize : Nat),
      stop := ((min ((i + 1) * chunkSize) totalSize : Nat) : Int) - 1,
      totalSize := totalSize,
      index := i }

end ChunkPlanner

/-- One chunk transport call as issued by the session: the range it carries
and the continuation identifier attached (absent on the first chunk).  Per
spec section 4.2 the caller metadata is attached identically on every call,
so it is not tracked per call. -/
structure ChunkRequest where
  range : ChunkRange
  uploadId : Option String
deriving DecidableEq, Repr

/-- Modelled from the spec: per-chunk backend response (wire contract,
spec section 6): continuation identifier, cumulative acknowledged counters,
and, on the final chunk, the resource-creation result. -/
structure ChunkResponse where
  uploadId : String
  chunksUploaded : Nat
  bytesUploaded : Nat
  statusCode : Int
  statusMsg : String
deriving DecidableEq, Repr

/-- The `ChunkTransportError` of the spec's error taxonomy (section 7): a
single chunk's network call failed. -/
structure ChunkTransportError where
  message : String
deriving DecidableEq, Repr

/-- Terminal result returned to the caller after the final chunk. -/
structure TerminalResult where
  statusCode : Int
  statusMsg : String
deriving DecidableEq, Repr

/-- Modelled from the spec: `UploadSessionState` (spec section 3) —
continuation id plus the counters, always adopted from the server's last
acknowledgement. -/
structure UploadSessionState where
  continuationId : Option String
  bytesUploaded : Nat
  chunksUploaded : Nat
deriving DecidableEq, Repr

/-- Modelled from the spec: `ProgressSnapshot` (spec section 3). -/
structure ProgressSnapshot where
  progress : Nat
  sizeUploaded : Nat
  chunksUploaded : Nat
  chunksTotal : Nat
deriving DecidableEq, Repr

deriving instance DecidableEq for Except

/-- Observable outcome of one chunked-upload run: the transport calls
issued in order, the progress snapshots delivered to the callback in order,
and the terminal result or the error surfaced to the caller. -/
structure RunResult where
  calls : List ChunkRequest
  snapshots : List ProgressSnapshot
  outcome : Except ChunkTransportError TerminalResult
deriving DecidableEq, Repr

/-- Modelled from the spec: the snapshot derived after a server
acknowledgement (spec section 3): `progress` is
`floor(sizeUploaded * 100 / totalSize)`, clamped to 100 on the terminal
chunk. -/
def mkSnapshot (isLast : Bool) (totalSize chunksTotal : Nat)
    (st : UploadSessionState) : ProgressSnapshot :=
  { progress := if isLast then 100 else st.bytesUploaded * 100 / totalSize,
    sizeUploaded := st.bytesUploaded,
    chunksUploaded := st.chunksUploaded,
    chunksTotal := chunksTotal }

/-- The session state adopted after a server acknowledgement (spec
section 4.2 step 3c: the session adopts the backend's authoritative
counters and continuation identifier, never estimating locally). -/
def ackState (resp : ChunkResponse) : UploadSessionState :=
  { continuationId := some resp.uploadId,
    bytesUploaded := resp.bytesUploaded,
    chunksUploaded := resp.chunksUploaded }

/-- Modelled from the spec: the sequential loop of
`ChunkedUploadSession.run` (spec section 4.2, steps 3-4): for each range in
index order issue one transport call carrying the continuation identifier
assigned by the previous acknowledgement; on failure reject immediately
with the `ChunkTransportError`; on success adopt the server's counters,
deliver a snapshot, and after the final range return the terminal result. -/
def sessionRun (transport : ChunkRequest → Except ChunkTransportError ChunkResponse)
    (chunksTotal totalSize : Nat) :
    List ChunkRange → UploadSessionState → RunResult
  | [], _ => { calls := [], snapshots := [], outcome := Except.ok ⟨0, ""⟩ }
  | r :: rest, st =>
    let req : ChunkRequest := { range := r, uploadId := st.continuationId }
    match transport req with
    | Except.error e => { calls := [req], snapshots := [], outcome := Except.error e }
    | Except.ok resp =>
      let st2 : UploadSessionState := ackState resp
      match rest with
      | [] =>
        { calls := [req],
          snapshots := [mkSnapshot true totalSize chunksTotal st2],
          outcome := Except.ok ⟨resp.statusCode, resp.statusMsg⟩ }
      | r2 :: rest2 =>
        let R := sessionRun transport chunksTotal totalSize (r2 :: rest2) st2
        { calls := req :: R.calls,
          snapshots := mkSnapshot false totalSize chunksTotal st2 :: R.snapshots,
          outcome := R.outcome }

/-- Session state at the start of a run: no continuation identifier, zero
counters (spec section 3). -/
def initialState : UploadSessionState :=
  { continuationId := none, bytesUploaded := 0, chunksUploaded := 0 }

/-- Modelled from the spec: `Client.chunkedUpload` of `client.ts` (not in
the source tree): plan the payload with the fixed `Client.CHUNK_SIZE` width
and run the sequential session from the fresh state. -/
def chunkedUpload (transport : ChunkRequest → Except ChunkTransportError ChunkResponse)
    (bytes : List Nat) : RunResult :=
  sessionRun transport (ChunkPlanner.numChunks bytes.length CHUNK_SIZE) bytes.length
    (ChunkPlanner.plan bytes.length CHUNK_SIZE) initialState

/-- A transport that always succeeds, answering each request from its range
alone. -/
def okTransport (f : ChunkRange → ChunkResponse) :
    ChunkRequest → Except ChunkTransportError ChunkResponse :=
  fun q => Except.ok (f q.range)

/-- Modelled from the spec: a backend honouring the wire contract (spec
section 6): every chunk is acknowledged with the cumulative chunk and byte
counters for the ranges received so far and a fixed continuation
identifier. -/
def honestResp (r : ChunkRange) : ChunkResponse :=
  { uploadId := "upload-1",
    chunksUploaded := r.index + 1,
    bytesUploaded := (r.stop + 1).toNat,
    statusCode := 0,
    statusMsg := "ok" }

/-- The continuation-identifier threading discipline of spec section 4.2:
each issued call carries the given identifier, and whenever a further call
follows, the call was acknowledged with some response whose identifier the
rest of the calls thread from. -/
def threaded (transport : ChunkRequest → Except ChunkTransportError ChunkResponse) :
    List ChunkRequest → Option String → Prop
  | [], _ => True
  | q :: rest, cid =>
      q.uploadId = cid
      ∧ (rest = [] ∨ ∃ resp, transport q = Except.ok resp
          ∧ threaded transport rest (some resp.uploadId))

/-- The snapshot sequence a fully-successful run delivers: one snapshot per
range, the terminal one clamped (auxiliary description used to reason about
`sessionRun` under an always-acknowledging transport). -/
def snapsSpec (f : ChunkRange → ChunkResponse) (n t : Nat) :
    List ChunkRange → List ProgressSnapshot
  | [] => []
  | [r] => [mkSnapshot true t n (ackState (f r))]
  | r :: r2 :: rest => mkSnapshot false t n (ackState (f r)) :: snapsSpec f n t (r2 :: rest)

/-- A transport that rejects the second chunk (range index 1) and
acknowledges every other chunk with the honest cumulative counters. -/
def failSecond : ChunkRequest → Except ChunkTransportError ChunkResponse :=
  fun q =>
    if q.range.index = 1 then Except.error { message := "connection reset" }
    else
      Except.ok
        { uploadId := "u1", chunksUploaded := q.range.index + 1,
          bytesUploaded := (q.range.stop + 1).toNat, statusCode := 0, statusMsg := "ok" }

/-- C1: `Publish.publishVideo` performs exactly one ordinary (non-chunked)
transport call if and only if the normalised payload's size is at most
`Client.CHUNK_SIZE` and no progress callback was supplied; in every other
case it dispatches to the chunked-upload path. -/
theorem publishVideo_single_call_iff (a : Int) (tok ti : String)
    (d : VideoData) (p : Bool) (bytes : List Nat)
    (hd : normalizeData d = Except.ok bytes) :
    (publishVideo (some a) (some tok) (some d) (some ti) p
        = Except.ok (UploadDispatch.single bytes)
      ↔ bytes.length ≤ CHUNK_SIZE ∧ p = false)
    ∧ (CHUNK_SIZE < bytes.length ∨ p = true →
        publishVideo (some a) (some tok) (some d) (some ti) p
          = Except.ok (UploadDispatch.chunked bytes p)) := by
  have hmain : publishVideo (some a) (some tok) (some d) (some ti) p
      = if CHUNK_SIZE < bytes.length ∨ p = true
        then Except.ok (UploadDispatch.chunked bytes p)
        else Except.ok (UploadDispatch.single bytes) := by
    simp only [publishVideo, hd]
  by_cases hcase : CHUNK_SIZE < bytes.length ∨ p = true
  · rw [hmain, if_pos hcase]
    refine ⟨⟨fun hcontr => by simp at hcontr, ?_⟩, fun _ => rfl⟩
    rintro ⟨hle, hp⟩
    rcases hcase with h | h
    · omega
    · rw [hp] at h; simp at h
  · rw [hmain, if_neg hcase]
    push_neg at hcase
    refine ⟨⟨fun _ => ⟨hcase.1, by simpa using hcase.2⟩, fun _ => rfl⟩, ?_⟩
    intro h
    rcases h with h | h
    · omega
    · exact absurd h hcase.2

/-- C1 witness: a 2 MiB payload with the 5 MiB chunk size and no callback
takes the single-call path. -/
theorem publishVideo_single_call_iff_witness :
    normalizeData (VideoData.buffer (List.replicate 2097152 0))
        = Except.ok (List.replicate 2097152 0)
    ∧ ((publishVideo (some 1) (some "t") (some (VideoData.buffer (List.replicate 2097152 0)))
          (some "v") false
          = Except.ok (UploadDispatch.single (List.replicate 2097152 0))
        ↔ (List.replicate 2097152 (0 : Nat)).length ≤ CHUNK_SIZE ∧ false = false)
      ∧ (CHUNK_SIZE < (List.replicate 2097152 (0 : Nat)).length ∨ false = true →
          publishVideo (some 1) (some "t") (some (VideoData.buffer (List.replicate 2097152 0)))
            (some "v") false
            = Except.ok (UploadDispatch.chunked (List.replicate 2097152 0) false))) :=
  ⟨rfl, publishVideo_single_call_iff 1 "t" "v" (VideoData.buffer (List.replicate 2097152 0))
      false (List.replicate 2097152 0) rfl⟩

/-- C4: a call to `Publish.publishVideo` with any required argument missing
(`undefined`) rejects synchronously with the `Missing required parameter`
`AppwriteException`; no transport dispatch (`UploadDispatch`) is produced,
so zero transport calls are issued. -/
theorem publishVideo_missing_param (a : Option Int) (tok : Option String)
    (d : Option VideoData) (ti : Option String) (p : Bool)
    (h : a = none ∨ tok = none ∨ d = none ∨ ti = none) :
    ∃ name, (name = "actorId" ∨ name = "token" ∨ name = "data" ∨ name = "title")
      ∧ publishVideo a tok d ti p = Except.error (missingParam name) := by
  cases a with
  | none => exact ⟨"actorId", by simp [publishVideo]⟩
  | some av =>
    cases tok with
    | none => exact ⟨"token", by simp [publishVideo]⟩
    | some tv =>
      cases d with
      | none => exact ⟨"data", by simp [publishVideo]⟩
      | some dv =>
        cases ti with
        | none => exact ⟨"title", by simp [publishVideo]⟩
        | some tiv => simp at h

/-- C4 witness: a call with `title` missing rejects with the invalid-call
exception. -/
theorem publishVideo_missing_param_witness :
    ((some (1 : Int)) = none ∨ (some "t") = (none : Option String)
        ∨ (some (VideoData.buffer [0])) = none ∨ (none : Option String) = none)
    ∧ ∃ name, (name = "actorId" ∨ name = "token" ∨ name = "data" ∨ name = "title")
      ∧ publishVideo (some 1) (some "t") (some (VideoData.buffer [0])) none false
          = Except.error (missingParam name) :=
  ⟨by simp, publishVideo_missing_param (some 1) (some "t")
      (some (VideoData.buffer [0])) none false (by simp)⟩

/-- C10: a defined `data` argument that is neither a `Buffer`, a `Blob` nor
a `File` makes `publishVideo` reject with the `Invalid data type` exception
before any transport dispatch, and `Buffer`/`Blob` inputs are normalised to
a `File` of the same bytes, so the call behaves exactly as the `File` call
on those bytes. -/
theorem publishVideo_data_type (a : Int) (tok ti : String) (p : Bool)
    (bytes : List Nat) :
    publishVideo (some a) (some tok) (some VideoData.other) (some ti) p
        = Except.error { message := "Invalid data type. Expected Buffer, Blob, or File" }
    ∧ publishVideo (some a) (some tok) (some (VideoData.buffer bytes)) (some ti) p
        = publishVideo (some a) (some tok) (some (VideoData.file bytes)) (some ti) p
    ∧ publishVideo (some a) (some tok) (some (VideoData.blob bytes)) (some ti) p
        = publishVideo (some a) (some tok) (some (VideoData.file bytes)) (some ti) p
    ∧ normalizeData (VideoData.buffer bytes) = Except.ok bytes
    ∧ normalizeData (VideoData.blob bytes) = Except.ok bytes := by
  refine ⟨rfl, rfl, rfl, rfl, rfl⟩

namespace ChunkPlanner

theorem plan_length (t c : Nat) : (plan t c).length = numChunks t c := by
  simp [plan]

theorem plan_getElem (t c i : Nat) (h : i < (plan t c).length) :
    (plan t c)[i] =
      { start := (i * c : Nat),
        stop := ((min ((i + 1) * c) t : Nat) : Int) - 1,
        totalSize := t, index := i } := by
  simp [plan]

theorem numChunks_pos (t c : Nat) (hc : 0 < c) : 0 < numChunks t c := by
  unfold numChunks
  by_cases ht : t = 0
  · simp [ht]
  · rw [if_neg ht]
    have h1 : 1 * c ≤ t + c - 1 := by omega
    exact (Nat.le_div_iff_mul_le hc).mpr h1

theorem mul_lt_total (t c i : Nat) (ht : 0 < t) (hc : 0 < c)
    (hi : i < numChunks t c) : i * c < t := by
  unfold numChunks at hi
  rw [if_neg (by omega)] at hi
  have h3 : (i + 1) * c ≤ t + c - 1 := (Nat.le_div_iff_mul_le hc).mp hi
  have h4 : (i + 1) * c = i * c + c := by ring
  omega

theorem total_le_numChunks_mul (t c : Nat) (hc : 0 < c) :
    t ≤ numChunks t c * c := by
  unfold numChunks
  by_cases ht : t = 0
  · simp [ht]
  · rw [if_neg ht]
    have hdm := Nat.div_add_mod (t + c - 1) c
    have hlt : (t + c - 1) % c < c := Nat.mod_lt _ hc
    have hcm : (t + c - 1) / c * c = c * ((t + c - 1) / c) := Nat.mul_comm _ _
    omega

theorem sum_min_telescope (c t n : Nat) :
    ((List.range n).map
        (fun i => ((min ((i + 1) * c) t : Nat) : Int) - ((min (i * c) t : Nat) : Int))).sum
      = ((min (n * c) t : Nat) : Int) := by
  induction n with
  | zero => simp
  | succ n ih =>
      rw [List.range_succ, List.map_append, List.sum_append, ih]
      simp only [List.map_cons, List.map_nil, List.sum_cons, List.sum_nil]
      push_cast
      omega

end ChunkPlanner

/-- C2: for positive `totalSize` and `chunkSize`, `ChunkPlanner.plan`
returns an ordered sequence of inclusive byte ranges, indexed in order,
non-degenerate, each of length at most `chunkSize`, contiguous (hence
non-overlapping), whose lengths sum to `totalSize`, whose final range ends
at `totalSize - 1`, and whose count is `ceil(totalSize / chunkSize)`. -/
theorem plan_partition (t c : Nat) (ht : 0 < t) (hc : 0 < c) :
    (ChunkPlanner.plan t c).length = (t + c - 1) / c
    ∧ (∀ i (h : i < (ChunkPlanner.plan t c).length),
        ((ChunkPlanner.plan t c).get ⟨i, h⟩).index = i)
    ∧ (∀ i (h : i < (ChunkPlanner.plan t c).length),
        0 < rangeLen ((ChunkPlanner.plan t c).get ⟨i, h⟩)
        ∧ rangeLen ((ChunkPlanner.plan t c).get ⟨i, h⟩) ≤ (c : Int))
    ∧ (∀ i (h : i + 1 < (ChunkPlanner.plan t c).length),
        ((ChunkPlanner.plan t c).get ⟨i + 1, h⟩).start
          = ((ChunkPlanner.plan t c).get ⟨i, Nat.lt_of_succ_lt h⟩).stop + 1)
    ∧ ((ChunkPlanner.plan t c).map rangeLen).sum = (t : Int)
    ∧ (∀ r, (ChunkPlanner.plan t c).getLast? = some r → r.stop = (t : Int) - 1) := by
  have hlen := ChunkPlanner.plan_length t c
  refine ⟨?_, ?_, ?_, ?_, ?_, ?_⟩
  · rw [hlen]
    unfold ChunkPlanner.numChunks
    rw [if_neg (by omega)]
  · intro i h
    rw [List.get_eq_getElem, ChunkPlanner.plan_getElem]
  · intro i h
    have hi : i < ChunkPlanner.numChunks t c := hlen ▸ h
    have h1 : i * c < t := ChunkPlanner.mul_lt_total t c i ht hc hi
    have h4 : (i + 1) * c = i * c + c := by ring
    have hmin1 : min ((i + 1) * c) t ≤ (i + 1) * c := Nat.min_le_left _ _
    have hmin2 : i * c < min ((i + 1) * c) t := lt_min (by omega) h1
    rw [List.get_eq_getElem, ChunkPlanner.plan_getElem]
    unfold rangeLen
    constructor <;> (simp only []; omega)
  · intro i h
    have hi1 : i + 1 < ChunkPlanner.numChunks t c := hlen ▸ h
    have h1 : (i + 1) * c < t := ChunkPlanner.mul_lt_total t c (i + 1) ht hc hi1
    rw [List.get_eq_getElem, List.get_eq_getElem,
      ChunkPlanner.plan_getElem, ChunkPlanner.plan_getElem]
    simp only []
    rw [Nat.min_eq_left (Nat.le_of_lt h1)]
    omega
  · have hmap : (ChunkPlanner.plan t c).map rangeLen
        = (List.range (ChunkPlanner.numChunks t c)).map
            (fun i => ((min ((i + 1) * c) t : Nat) : Int) - ((min (i * c) t : Nat) : Int)) := by
      rw [ChunkPlanner.plan, List.map_map]
      apply List.map_congr_left
      intro i hi
      rw [List.mem_range] at hi
      have h1 : i * c < t := ChunkPlanner.mul_lt_total t c i ht hc hi
      simp only [Function.comp, rangeLen]
      push_cast
      omega
    rw [hmap, ChunkPlanner.sum_min_telescope]
    have h2 : t ≤ ChunkPlanner.numChunks t c * c :=
      ChunkPlanner.total_le_numChunks_mul t c hc
    rw [Nat.min_eq_right h2]
  · intro r hr
    have hpos : 0 < (ChunkPlanner.plan t c).length := by
      rw [hlen]; exact ChunkPlanner.numChunks_pos t c hc
    rw [List.getLast?_eq_getElem?,
      List.getElem?_eq_getElem (by omega : (ChunkPlanner.plan t c).length - 1
        < (ChunkPlanner.plan t c).length)] at hr
    rw [ChunkPlanner.plan_getElem] at hr
    cases hr
    simp only []
    have hnpos : 0 < ChunkPlanner.numChunks t c := ChunkPlanner.numChunks_pos t c hc
    have hn : ChunkPlanner.numChunks t c - 1 + 1 = ChunkPlanner.numChunks t c := by
      omega
    rw [hlen, hn]
    have h2 : t ≤ ChunkPlanner.numChunks t c * c :=
      ChunkPlanner.total_le_numChunks_mul t c hc
    rw [Nat.min_eq_right h2]

theorem sessionRun_nil (transport : ChunkRequest → Except ChunkTransportError ChunkResponse)
    (n t : Nat) (st : UploadSessionState) :
    sessionRun transport n t [] st
      = { calls := [], snapshots := [], outcome := Except.ok ⟨0, ""⟩ } :=
  rfl

theorem sessionRun_cons_error (transport : ChunkRequest → Except ChunkTransportError ChunkResponse)
    (n t : Nat) (r : ChunkRange) (rest : List ChunkRange) (st : UploadSessionState)
    (e : ChunkTransportError)
    (h : transport { range := r, uploadId := st.continuationId } = Except.error e) :
    sessionRun transport n t (r :: rest) st
      = { calls := [{ range := r, uploadId := st.continuationId }],
          snapshots := [], outcome := Except.error e } := by
  rw [sessionRun.eq_2, h]

theorem sessionRun_cons_ok_last (transport : ChunkRequest → Except ChunkTransportError ChunkResponse)
    (n t : Nat) (r : ChunkRange) (st : UploadSessionState) (resp : ChunkResponse)
    (h : transport { range := r, uploadId := st.continuationId } = Except.ok resp) :
    sessionRun transport n t [r] st
      = { calls := [{ range := r, uploadId := st.continuationId }],
          snapshots := [mkSnapshot true t n (ackState resp)],
          outcome := Except.ok ⟨resp.statusCode, resp.statusMsg⟩ } := by
  rw [sessionRun.eq_2, h]

theorem sessionRun_cons_ok_mid (transport : ChunkRequest → Except ChunkTransportError ChunkResponse)
    (n t : Nat) (r r2 : ChunkRange) (rest2 : List ChunkRange) (st : UploadSessionState)
    (resp : ChunkResponse)
    (h : transport { range := r, uploadId := st.continuationId } = Except.ok resp) :
    sessionRun transport n t (r :: r2 :: rest2) st
      = { calls := { range := r, uploadId := st.continuationId }
            :: (sessionRun transport n t (r2 :: rest2) (ackState resp)).calls,
          snapshots := mkSnapshot false t n (ackState resp)
            :: (sessionRun transport n t (r2 :: rest2) (ackState resp)).snapshots,
          outcome := (sessionRun transport n t (r2 :: rest2) (ackState resp)).outcome } := by
  rw [sessionRun.eq_2, h]

theorem sessionRun_calls_take
    (transport : ChunkRequest → Except ChunkTransportError ChunkResponse)
    (n t : Nat) :
    ∀ (rs : List ChunkRange) (st : UploadSessionState),
      ((sessionRun transport n t rs st).calls.map fun q => q.range)
        = rs.take (sessionRun transport n t rs st).calls.length := by
  intro rs
  induction rs with
  | nil => intro st; simp [sessionRun_nil]
  | cons r rest ih =>
    intro st
    cases htr : transport { range := r, uploadId := st.continuationId } with
    | error e =>
        rw [sessionRun_cons_error transport n t r rest st e htr]
        simp
    | ok resp =>
        cases rest with
        | nil =>
            rw [sessionRun_cons_ok_last transport n t r st resp htr]
            simp
        | cons r2 rest2 =>
            rw [sessionRun_cons_ok_mid transport n t r r2 rest2 st resp htr]
            simp only [List.map_cons, List.length_cons, List.take_succ_cons,
              List.cons.injEq, true_and]
            exact ih (ackState resp)

theorem sessionRun_ok_calls (f : ChunkRange → ChunkResponse) (n t : Nat) :
    ∀ (rs : List ChunkRange) (st : UploadSessionState),
      ((sessionRun (okTransport f) n t rs st).calls.map fun q => q.range) = rs := by
  intro rs
  induction rs with
  | nil => intro st; simp [sessionRun_nil]
  | cons r rest ih =>
    intro st
    have htr : okTransport f { range := r, uploadId := st.continuationId }
        = Except.ok (f r) := rfl
    cases rest with
    | nil =>
        rw [sessionRun_cons_ok_last (okTransport f) n t r st (f r) htr]
        simp
    | cons r2 rest2 =>
        rw [sessionRun_cons_ok_mid (okTransport f) n t r r2 rest2 st (f r) htr]
        simp only [List.map_cons, List.cons.injEq, true_and]
        exact ih (ackState (f r))

theorem sessionRun_ok_snapshots (f : ChunkRange → ChunkResponse) (n t : Nat) :
    ∀ (rs : List ChunkRange) (st : UploadSessionState),
      (sessionRun (okTransport f) n t rs st).snapshots = snapsSpec f n t rs := by
  intro rs
  induction rs with
  | nil => intro st; simp [sessionRun_nil, snapsSpec]
  | cons r rest ih =>
    intro st
    have htr : okTransport f { range := r, uploadId := st.continuationId }
        = Except.ok (f r) := rfl
    cases rest with
    | nil =>
        rw [sessionRun_cons_ok_last (okTransport f) n t r st (f r) htr]
        rfl
    | cons r2 rest2 =>
        rw [sessionRun_cons_ok_mid (okTransport f) n t r r2 rest2 st (f r) htr]
        simp only [snapsSpec, List.cons.injEq, true_and]
        exact ih (ackState (f r))

theorem getLast?_cons_ne_nil {α : Type} (a : α) (l : List α) (h : l ≠ []) :
    (a :: l).getLast? = l.getLast? := by
  cases l with
  | nil => exact absurd rfl h
  | cons b l2 => exact List.getLast?_cons_cons

theorem sessionRun_error
    (transport : ChunkRequest → Except ChunkTransportError ChunkResponse)
    (n t : Nat) :
    ∀ (rs : List ChunkRange) (st : UploadSessionState) (e : ChunkTransportError),
      (sessionRun transport n t rs st).outcome = Except.error e →
      0 < (sessionRun transport n t rs st).calls.length
      ∧ (∃ q, (sessionRun transport n t rs st).calls.getLast? = some q
          ∧ transport q = Except.error e)
      ∧ (sessionRun transport n t rs st).snapshots.length + 1
          = (sessionRun transport n t rs st).calls.length := by
  intro rs
  induction rs with
  | nil =>
      intro st e h
      rw [sessionRun_nil] at h
      exact absurd h (by simp)
  | cons r rest ih =>
      intro st e h
      cases htr : transport { range := r, uploadId := st.continuationId } with
      | error e2 =>
          rw [sessionRun_cons_error transport n t r rest st e2 htr] at h ⊢
          have he : e2 = e := by
            simpa using h
          subst he
          refine ⟨by simp, ⟨_, by simp, htr⟩, by simp⟩
      | ok resp =>
          cases rest with
          | nil =>
              rw [sessionRun_cons_ok_last transport n t r st resp htr] at h
              exact absurd h (by simp)
          | cons r2 rest2 =>
              rw [sessionRun_cons_ok_mid transport n t r r2 rest2 st resp htr] at h
              dsimp only at h
              have hrec := ih (ackState resp) e h
              obtain ⟨hpos, ⟨q, hq, hqe⟩, hsn⟩ := hrec
              have hne : (sessionRun transport n t (r2 :: rest2) (ackState resp)).calls ≠ [] := by
                intro hnil
                rw [hnil] at hpos
                simp at hpos
              rw [sessionRun_cons_ok_mid transport n t r r2 rest2 st resp htr]
              dsimp only
              refine ⟨by simp, ⟨q, ?_, hqe⟩, ?_⟩
              · rw [getLast?_cons_ne_nil _ _ hne]
                exact hq
              · simp only [List.length_cons]
                omega

theorem threaded_nil
    (transport : ChunkRequest → Except ChunkTransportError ChunkResponse)
    (cid : Option String) : threaded transport [] cid :=
  trivial

theorem threaded_cons
    (transport : ChunkRequest → Except ChunkTransportError ChunkResponse)
    (q : ChunkRequest) (l : List ChunkRequest) (cid : Option String)
    (h1 : q.uploadId = cid)
    (h2 : l = [] ∨ ∃ resp, transport q = Except.ok resp
        ∧ threaded transport l (some resp.uploadId)) :
    threaded transport (q :: l) cid :=
  ⟨h1, h2⟩

theorem sessionRun_threaded
    (transport : ChunkRequest → Except ChunkTransportError ChunkResponse)
    (n t : Nat) :
    ∀ (rs : List ChunkRange) (st : UploadSessionState),
      threaded transport (sessionRun transport n t rs st).calls st.continuationId := by
  intro rs
  induction rs with
  | nil =>
      intro st
      rw [sessionRun_nil]
      exact threaded_nil transport st.continuationId
  | cons r rest ih =>
      intro st
      cases htr : transport { range := r, uploadId := st.continuationId } with
      | error e =>
          rw [sessionRun_cons_error transport n t r rest st e htr]
          exact threaded_cons transport _ _ _ rfl (Or.inl rfl)
      | ok resp =>
          cases rest with
          | nil =>
              rw [sessionRun_cons_ok_last transport n t r st resp htr]
              exact threaded_cons transport _ _ _ rfl (Or.inl rfl)
          | cons r2 rest2 =>
              rw [sessionRun_cons_ok_mid transport n t r r2 rest2 st resp htr]
              exact threaded_cons transport _ _ _ rfl
                (Or.inr ⟨resp, htr, ih (ackState resp)⟩)

theorem plan_getLast (t c : Nat) (hc : 0 < c) :
    (ChunkPlanner.plan t c).getLast? = some
      { start := ((ChunkPlanner.numChunks t c - 1) * c : Nat),
        stop := ((min ((ChunkPlanner.numChunks t c - 1 + 1) * c) t : Nat) : Int) - 1,
        totalSize := t, index := ChunkPlanner.numChunks t c - 1 } := by
  have hpos : 0 < (ChunkPlanner.plan t c).length := by
    rw [ChunkPlanner.plan_length]
    exact ChunkPlanner.numChunks_pos t c hc
  rw [List.getLast?_eq_getElem?,
    List.getElem?_eq_getElem (by omega : (ChunkPlanner.plan t c).length - 1
      < (ChunkPlanner.plan t c).length),
    ChunkPlanner.plan_getElem, ChunkPlanner.plan_length]

theorem snapsSpec_ne_nil (f : ChunkRange → ChunkResponse) (n t : Nat)
    (r : ChunkRange) (rest : List ChunkRange) :
    snapsSpec f n t (r :: rest) ≠ [] := by
  cases rest <;> simp [snapsSpec]

theorem snapsSpec_getLast (f : ChunkRange → ChunkResponse) (n t : Nat) :
    ∀ (rs : List ChunkRange) (r : ChunkRange), rs.getLast? = some r →
      (snapsSpec f n t rs).getLast? = some (mkSnapshot true t n (ackState (f r))) := by
  intro rs
  induction rs with
  | nil => intro r hr; simp at hr
  | cons r0 rest ih =>
    intro r hr
    cases rest with
    | nil =>
        simp only [List.getLast?_singleton, Option.some.injEq] at hr
        subst hr
        simp [snapsSpec]
    | cons r1 rest2 =>
        rw [List.getLast?_cons_cons] at hr
        rw [show snapsSpec f n t (r0 :: r1 :: rest2)
            = mkSnapshot false t n (ackState (f r0)) :: snapsSpec f n t (r1 :: rest2) from rfl]
        rw [getLast?_cons_ne_nil _ _ (snapsSpec_ne_nil f n t r1 rest2)]
        exact ih r hr

theorem mkSnapshot_false_progress (t n : Nat) (st : UploadSessionState) :
    (mkSnapshot false t n st).progress = st.bytesUploaded * 100 / t :=
  rfl

theorem mkSnapshot_true_progress (t n : Nat) (st : UploadSessionState) :
    (mkSnapshot true t n st).progress = 100 :=
  rfl

theorem chain_snapsSpec (f : ChunkRange → ChunkResponse) (n t : Nat) (ht : 0 < t) :
    ∀ rs : List ChunkRange,
      rs.Chain' (fun a b => (f a).bytesUploaded ≤ (f b).bytesUploaded) →
      (∀ r ∈ rs, (f r).bytesUploaded ≤ t) →
      ((snapsSpec f n t rs).map fun s => s.progress).Chain' (fun x y => x ≤ y) := by
  intro rs
  induction rs with
  | nil => intro _ _; simp [snapsSpec]
  | cons r0 rest ih =>
    intro hmono hle
    cases rest with
    | nil => simp [snapsSpec]
    | cons r1 rest2 =>
        rw [show snapsSpec f n t (r0 :: r1 :: rest2)
            = mkSnapshot false t n (ackState (f r0)) :: snapsSpec f n t (r1 :: rest2) from rfl]
        rw [List.map_cons, List.chain'_cons']
        obtain ⟨h01, hmono2⟩ := List.chain'_cons.mp hmono
        constructor
        · intro y hy
          cases rest2 with
          | nil =>
              rw [show snapsSpec f n t [r1] = [mkSnapshot true t n (ackState (f r1))] from rfl]
                at hy
              simp only [List.map_cons, List.map_nil, List.head?_cons, Option.mem_def,
                Option.some.injEq] at hy
              subst hy
              show (mkSnapshot false t n (ackState (f r0))).progress
                  ≤ (mkSnapshot true t n (ackState (f r1))).progress
              rw [mkSnapshot_false_progress, mkSnapshot_true_progress]
              have hb : (f r0).bytesUploaded ≤ t := hle r0 (by simp)
              have hcalc : (f r0).bytesUploaded * 100 / t ≤ t * 100 / t :=
                Nat.div_le_div_right (Nat.mul_le_mul_right 100 hb)
              have hdc : t * 100 / t = 100 := by
                rw [Nat.mul_comm]
                exact Nat.mul_div_cancel 100 ht
              have hst : (ackState (f r0)).bytesUploaded = (f r0).bytesUploaded := rfl
              rw [hst]
              omega
          | cons r2 rest3 =>
              rw [show snapsSpec f n t (r1 :: r2 :: rest3)
                  = mkSnapshot false t n (ackState (f r1)) :: snapsSpec f n t (r2 :: rest3)
                from rfl] at hy
              simp only [List.map_cons, List.head?_cons, Option.mem_def,
                Option.some.injEq] at hy
              subst hy
              show (mkSnapshot false t n (ackState (f r0))).progress
                  ≤ (mkSnapshot false t n (ackState (f r1))).progress
              rw [mkSnapshot_false_progress, mkSnapshot_false_progress]
              exact Nat.div_le_div_right (Nat.mul_le_mul_right 100 h01)
        · exact ih hmono2 (fun x hx => hle x (List.mem_cons_of_mem _ hx))

theorem plan_chain_bytes (t c : Nat) :
    (ChunkPlanner.plan t c).Chain'
      (fun a b => (honestResp a).bytesUploaded ≤ (honestResp b).bytesUploaded) := by
  rw [List.chain'_iff_get]
  intro i h
  have h2 : i + 1 < (ChunkPlanner.plan t c).length := by omega
  rw [List.get_eq_getElem, List.get_eq_getElem, ChunkPlanner.plan_getElem,
    ChunkPlanner.plan_getElem]
  dsimp only [honestResp]
  have h1 : (i + 1) * c ≤ (i + 1 + 1) * c := Nat.mul_le_mul_right c (by omega)
  omega

theorem plan_bytes_le (t c : Nat) :
    ∀ r ∈ ChunkPlanner.plan t c, (honestResp r).bytesUploaded ≤ t := by
  intro r hr
  rw [ChunkPlanner.plan] at hr
  simp only [List.mem_map, List.mem_range] at hr
  obtain ⟨i, hi, rfl⟩ := hr
  dsimp only [honestResp]
  omega

theorem publishVideo_dispatch (a : Int) (tok ti : String) (d : VideoData) (p : Bool)
    (bytes : List Nat) (hd : normalizeData d = Except.ok bytes) :
    publishVideo (some a) (some tok) (some d) (some ti) p
      = if CHUNK_SIZE < bytes.length ∨ p = true
        then Except.ok (UploadDispatch.chunked bytes p)
        else Except.ok (UploadDispatch.single bytes) := by
  simp only [publishVideo, hd]

/-- C8: for every positive chunk size, planning an empty payload produces
exactly one degenerate zero-length range `[0, -1]`, so the upload protocol
still performs at least one transmission. -/
theorem plan_empty_payload (c : Nat) (hc : 0 < c) :
    ChunkPlanner.plan 0 c = [{ start := 0, stop := -1, totalSize := 0, index := 0 }] := by
  have h1 : ChunkPlanner.numChunks 0 c = 1 := by
    simp [ChunkPlanner.numChunks]
  rw [ChunkPlanner.plan, h1]
  simp [List.range_succ, ChunkRange.mk.injEq]

/-- C8 witness: planning an empty payload with chunk size 2 yields the one
degenerate range. -/
theorem plan_empty_payload_witness :
    0 < 2
    ∧ ChunkPlanner.plan 0 2 = [{ start := 0, stop := -1, totalSize := 0, index := 0 }] :=
  ⟨by decide, plan_empty_payload 2 (by decide)⟩

/-- C2 witness: the partition properties hold for the concrete plan of a
5-byte payload with 2-byte chunks. -/
theorem plan_partition_witness :
    0 < 5 ∧ 0 < 2
    ∧ ((ChunkPlanner.plan 5 2).length = (5 + 2 - 1) / 2
      ∧ (∀ i (h : i < (ChunkPlanner.plan 5 2).length),
          ((ChunkPlanner.plan 5 2).get ⟨i, h⟩).index = i)
      ∧ (∀ i (h : i < (ChunkPlanner.plan 5 2).length),
          0 < rangeLen ((ChunkPlanner.plan 5 2).get ⟨i, h⟩)
          ∧ rangeLen ((ChunkPlanner.plan 5 2).get ⟨i, h⟩) ≤ ((2 : Nat) : Int))
      ∧ (∀ i (h : i + 1 < (ChunkPlanner.plan 5 2).length),
          ((ChunkPlanner.plan 5 2).get ⟨i + 1, h⟩).start
            = ((ChunkPlanner.plan 5 2).get ⟨i, Nat.lt_of_succ_lt h⟩).stop + 1)
      ∧ ((ChunkPlanner.plan 5 2).map rangeLen).sum = ((5 : Nat) : Int)
      ∧ (∀ r, (ChunkPlanner.plan 5 2).getLast? = some r → r.stop = ((5 : Nat) : Int) - 1)) :=
  ⟨by decide, by decide, plan_partition 5 2 (by decide) (by decide)⟩

/-- C3 counterexample: the source entry point has no `chunkSizeOverride`
parameter; against the spec's entry point (which accepts one), at a 3-byte
payload with override 2 and no callback, the spec-described call takes the
chunked path while the source call performs the single ordinary call, so
the caller-supplied override the claim describes does not govern the
decision in the code. -/
theorem chunk_size_override_counterexample :
    publishVideoSpec (some 1) (some "t") (some (VideoData.buffer [0, 0, 0])) (some "v")
        (some 2) false
      = Except.ok (UploadDispatch.chunked [0, 0, 0] false)
    ∧ publishVideo (some 1) (some "t") (some (VideoData.buffer [0, 0, 0])) (some "v") false
      = Except.ok (UploadDispatch.single [0, 0, 0]) :=
  ⟨by decide, by decide⟩

/-- C3 amended: `Publish.publishVideo` accepts no chunk-size override; the
fixed constant `Client.CHUNK_SIZE` governs both the small-file
skip-chunking decision and, through `client.chunkedUpload`'s planner, the
number (hence width) of the planned ranges. -/
theorem chunk_size_fixed (a : Int) (tok ti : String) (p : Bool) (bytes : List Nat)
    (f : ChunkRange → ChunkResponse) :
    (publishVideo (some a) (some tok) (some (VideoData.file bytes)) (some ti) p
        = Except.ok (UploadDispatch.single bytes)
      ↔ bytes.length ≤ CHUNK_SIZE ∧ p = false)
    ∧ (chunkedUpload (okTransport f) bytes).calls.length
        = ChunkPlanner.numChunks bytes.length CHUNK_SIZE := by
  constructor
  · rw [publishVideo_dispatch a tok ti (VideoData.file bytes) p bytes rfl]
    by_cases hcase : CHUNK_SIZE < bytes.length ∨ p = true
    · rw [if_pos hcase]
      constructor
      · intro hcontr
        exact absurd hcontr (by simp)
      · rintro ⟨hle, hp⟩
        rcases hcase with hx | hx
        · omega
        · rw [hp] at hx
          simp at hx
    · rw [if_neg hcase]
      push_neg at hcase
      exact ⟨fun _ => ⟨hcase.1, by simpa using hcase.2⟩, fun _ => rfl⟩
  · have hcalls := sessionRun_ok_calls f (ChunkPlanner.numChunks bytes.length CHUNK_SIZE)
        bytes.length (ChunkPlanner.plan bytes.length CHUNK_SIZE) initialState
    have hlen := congrArg List.length hcalls
    rw [List.length_map] at hlen
    rw [show (chunkedUpload (okTransport f) bytes).calls
        = (sessionRun (okTransport f) (ChunkPlanner.numChunks bytes.length CHUNK_SIZE)
            bytes.length (ChunkPlanner.plan bytes.length CHUNK_SIZE) initialState).calls
      from rfl]
    rw [hlen, ChunkPlanner.plan_length]

/-- C5: if a chunk's transport call fails, the run rejects with exactly
that `ChunkTransportError`; the calls issued form a prefix of the planned
ranges ending at the failed call (so no later chunk is ever issued and no
chunk is re-sent), and only the chunks acknowledged before the failure
produced progress snapshots, so no partial success reaches the caller. -/
theorem chunk_failure_aborts
    (transport : ChunkRequest → Except ChunkTransportError ChunkResponse)
    (n t : Nat) (rs : List ChunkRange) (st : UploadSessionState)
    (e : ChunkTransportError)
    (h : (sessionRun transport n t rs st).outcome = Except.error e) :
    ((sessionRun transport n t rs st).calls.map fun q => q.range)
        = rs.take (sessionRun transport n t rs st).calls.length
    ∧ 0 < (sessionRun transport n t rs st).calls.length
    ∧ (∃ q, (sessionRun transport n t rs st).calls.getLast? = some q
        ∧ transport q = Except.error e)
    ∧ (sessionRun transport n t rs st).snapshots.length + 1
        = (sessionRun transport n t rs st).calls.length := by
  obtain ⟨h1, h2, h3⟩ := sessionRun_error transport n t rs st e h
  exact ⟨sessionRun_calls_take transport n t rs st, h1, h2, h3⟩

/-- C5 witness: over the three planned chunks of a 6-byte payload with
2-byte chunks, a failure on the second chunk stops the run after exactly
two calls — no third call is issued. -/
theorem chunk_failure_aborts_witness :
    (sessionRun failSecond 3 6 (ChunkPlanner.plan 6 2) initialState).outcome
        = Except.error { message := "connection reset" }
    ∧ (sessionRun failSecond 3 6 (ChunkPlanner.plan 6 2) initialState).calls.length = 2
    ∧ (((sessionRun failSecond 3 6 (ChunkPlanner.plan 6 2) initialState).calls.map
          fun q => q.range)
        = (ChunkPlanner.plan 6 2).take
            (sessionRun failSecond 3 6 (ChunkPlanner.plan 6 2) initialState).calls.length
      ∧ 0 < (sessionRun failSecond 3 6 (ChunkPlanner.plan 6 2) initialState).calls.length
      ∧ (∃ q, (sessionRun failSecond 3 6 (ChunkPlanner.plan 6 2) initialState).calls.getLast?
            = some q
          ∧ failSecond q = Except.error { message := "connection reset" })
      ∧ (sessionRun failSecond 3 6 (ChunkPlanner.plan 6 2) initialState).snapshots.length + 1
          = (sessionRun failSecond 3 6 (ChunkPlanner.plan 6 2) initialState).calls.length) :=
  ⟨by decide, by decide,
    chunk_failure_aborts failSecond 3 6 (ChunkPlanner.plan 6 2) initialState
      { message := "connection reset" } (by decide)⟩

/-- C6: within one chunked upload the issued calls follow the planned
ranges strictly in index order (the trace is always a prefix of the plan in
order, never reordered or duplicated), the first call carries no
continuation identifier, and every later call carries the identifier
acknowledged by the previous call (`threaded`); concretely, a 12 MiB
payload with the 5 MiB chunk size plans exactly the three ranges
`[0,5242879]`, `[5242880,10485759]`, `[10485760,12582911]` in that
order. -/
theorem chunk_calls_sequential
    (transport : ChunkRequest → Except ChunkTransportError ChunkResponse)
    (bytes : List Nat) :
    ((chunkedUpload transport bytes).calls.map fun q => q.range)
        = (ChunkPlanner.plan bytes.length CHUNK_SIZE).take
            (chunkedUpload transport bytes).calls.length
    ∧ threaded transport (chunkedUpload transport bytes).calls none
    ∧ ChunkPlanner.plan (12 * 1024 * 1024) CHUNK_SIZE
        = [{ start := 0, stop := 5242879, totalSize := 12582912, index := 0 },
           { start := 5242880, stop := 10485759, totalSize := 12582912, index := 1 },
           { start := 10485760, stop := 12582911, totalSize := 12582912, index := 2 }] := by
  refine ⟨?_, ?_, ?_⟩
  · exact sessionRun_calls_take transport (ChunkPlanner.numChunks bytes.length CHUNK_SIZE)
      bytes.length (ChunkPlanner.plan bytes.length CHUNK_SIZE) initialState
  · exact sessionRun_threaded transport (ChunkPlanner.numChunks bytes.length CHUNK_SIZE)
      bytes.length (ChunkPlanner.plan bytes.length CHUNK_SIZE) initialState
  · decide

/-- C7: for a nonempty payload uploaded through the chunked path against a
backend honouring the wire contract, the final progress snapshot delivered
reports `progress = 100` (the terminal clamp) and `sizeUploaded` equal to
the payload size. -/
theorem final_snapshot_complete (bytes : List Nat) (h : 0 < bytes.length) :
    ∃ snap, (chunkedUpload (okTransport honestResp) bytes).snapshots.getLast? = some snap
      ∧ snap.progress = 100 ∧ snap.sizeUploaded = bytes.length := by
  have hc : 0 < CHUNK_SIZE := by norm_num [CHUNK_SIZE]
  have hlast := plan_getLast bytes.length CHUNK_SIZE hc
  have hfin := snapsSpec_getLast honestResp
      (ChunkPlanner.numChunks bytes.length CHUNK_SIZE) bytes.length
      (ChunkPlanner.plan bytes.length CHUNK_SIZE) _ hlast
  refine ⟨mkSnapshot true bytes.length (ChunkPlanner.numChunks bytes.length CHUNK_SIZE)
      (ackState (honestResp
        { start := ((ChunkPlanner.numChunks bytes.length CHUNK_SIZE - 1) * CHUNK_SIZE : Nat),
          stop := ((min ((ChunkPlanner.numChunks bytes.length CHUNK_SIZE - 1 + 1) * CHUNK_SIZE)
              bytes.length : Nat) : Int) - 1,
          totalSize := bytes.length,
          index := ChunkPlanner.numChunks bytes.length CHUNK_SIZE - 1 })), ?_, rfl, ?_⟩
  · rw [show (chunkedUpload (okTransport honestResp) bytes).snapshots
        = snapsSpec honestResp (ChunkPlanner.numChunks bytes.length CHUNK_SIZE) bytes.length
            (ChunkPlanner.plan bytes.length CHUNK_SIZE)
      from sessionRun_ok_snapshots honestResp (ChunkPlanner.numChunks bytes.length CHUNK_SIZE)
        bytes.length (ChunkPlanner.plan bytes.length CHUNK_SIZE) initialState]
    exact hfin
  · dsimp only [mkSnapshot, ackState, honestResp]
    have hpos := ChunkPlanner.numChunks_pos bytes.length CHUNK_SIZE hc
    have hnn : ChunkPlanner.numChunks bytes.length CHUNK_SIZE - 1 + 1
        = ChunkPlanner.numChunks bytes.length CHUNK_SIZE := by omega
    have h2 := ChunkPlanner.total_le_numChunks_mul bytes.length CHUNK_SIZE hc
    rw [hnn, Nat.min_eq_right h2]
    omega

/-- C7 witness: a 3-byte payload through the chunked path ends with a
snapshot reporting 100 percent and 3 bytes uploaded. -/
theorem final_snapshot_complete_witness :
    0 < ([1, 2, 3] : List Nat).length
    ∧ ∃ snap, (chunkedUpload (okTransport honestResp) [1, 2, 3]).snapshots.getLast? = some snap
        ∧ snap.progress = 100 ∧ snap.sizeUploaded = ([1, 2, 3] : List Nat).length :=
  ⟨by decide, final_snapshot_complete [1, 2, 3] (by decide)⟩

/-- C9: across one chunked run against a backend honouring the wire
contract, the `progress` fields of the successive snapshots delivered to
the callback are monotonically non-decreasing. -/
theorem progress_monotone (bytes : List Nat) :
    ((chunkedUpload (okTransport honestResp) bytes).snapshots.map fun s => s.progress).Chain'
      (fun x y => x ≤ y) := by
  rw [show (chunkedUpload (okTransport honestResp) bytes).snapshots
      = snapsSpec honestResp (ChunkPlanner.numChunks bytes.length CHUNK_SIZE) bytes.length
          (ChunkPlanner.plan bytes.length CHUNK_SIZE)
    from sessionRun_ok_snapshots honestResp (ChunkPlanner.numChunks bytes.length CHUNK_SIZE)
      bytes.length (ChunkPlanner.plan bytes.length CHUNK_SIZE) initialState]
  by_cases ht : 0 < bytes.length
  · exact chain_snapsSpec honestResp (ChunkPlanner.numChunks bytes.length CHUNK_SIZE)
      bytes.length ht (ChunkPlanner.plan bytes.length CHUNK_SIZE)
      (plan_chain_bytes bytes.length CHUNK_SIZE) (plan_bytes_le bytes.length CHUNK_SIZE)
  · have hz : bytes.length = 0 := by omega
    rw [hz]
    rw [show ChunkPlanner.plan 0 CHUNK_SIZE
        = [{ start := 0, stop := -1, totalSize := 0, index := 0 }] from rfl]
    rw [show snapsSpec honestResp (ChunkPlanner.numChunks 0 CHUNK_SIZE) 0
          [{ start := 0, stop := -1, totalSize := 0, index := 0 }]
        = [mkSnapshot true 0 (ChunkPlanner.numChunks 0 CHUNK_SIZE)
            (ackState (honestResp { start := 0, stop := -1, totalSize := 0, index := 0 }))]
      from rfl]
    simp only [List.map_cons, List.map_nil]
    exact List.chain'_singleton _
